import Mathlib

/-!
Verification of the portfolio-optimisation core (src/portfolio.py).

Shallow embedding conventions:
- Daily returns are exact rationals (`ℚ`); a return series is the list of
  rows of the pandas DataFrame together with its column count.
- `numpy` float division by zero follows IEEE-754: `x / 0` is `+inf`/`-inf`
  for nonzero `x` and `NaN` for `0 / 0`.  We model values that can be
  produced by such a division with the type `EVal`, whose `fin` constructor
  carries the exact value and whose other constructors are the IEEE
  non-finite results.
- `sqrt` is the real square root, so the annualised volatility lives in `ℝ`.
- `pandas.DataFrame.cov()` is the sample covariance (denominator `n - 1`).
- The scipy SLSQP solver is an external library: it is modelled as an
  arbitrary function from a minimisation problem description (objective,
  initial point, bounds, equality constraint, method) to a result record
  carrying the solution point `x` and the convergence flag `success`,
  exactly the fields `get_optimal_portfolio` touches.
-/

/-- Extended value: a finite exact value or an IEEE non-finite result. -/
inductive EVal (α : Type) where
  | fin (x : α)
  | posInf
  | negInf
  | nan
deriving DecidableEq

/-- IEEE-style division on exact rationals: division by zero yields
`±inf` or `NaN` instead of Lean's junk value `0`. -/
def evalDivQ (a b : ℚ) : EVal ℚ :=
  if b = 0 then
    if 0 < a then EVal.posInf else if a < 0 then EVal.negInf else EVal.nan
  else EVal.fin (a / b)

/-- IEEE-style division on reals (used for the Sharpe ratio, whose
denominator is a real square root). -/
noncomputable def evalDivR (a b : ℝ) : EVal ℝ :=
  if b = 0 then
    if 0 < a then EVal.posInf else if a < 0 then EVal.negInf else EVal.nan
  else EVal.fin (a / b)

/-- Negation on extended values (IEEE: `-NaN` is `NaN`, `-inf` flips sign). -/
def evalNeg {α : Type} [Neg α] : EVal α → EVal α
  | EVal.fin x => EVal.fin (-x)
  | EVal.posInf => EVal.negInf
  | EVal.negInf => EVal.posInf
  | EVal.nan => EVal.nan

/-- The return series handed to the core: the rows of the DataFrame of
daily fractional returns and its number of columns (assets). -/
structure ReturnSeries where
  ncols : ℕ
  rows : List (List ℚ)

/-- Mean of column `j` of the return series (`returns.mean()` entry `j`). -/
def colMean (R : ReturnSeries) (j : ℕ) : ℚ :=
  (R.rows.map (fun r => r.getD j 0)).sum / (R.rows.length : ℚ)

/-- Sample covariance of columns `i` and `j` (`returns.cov()` entry, pandas
default `ddof = 1`, denominator `n - 1`). -/
def sampleCov (R : ReturnSeries) (i j : ℕ) : ℚ :=
  (R.rows.map (fun r =>
    (r.getD i 0 - colMean R i) * (r.getD j 0 - colMean R j))).sum
    / ((R.rows.length : ℚ) - 1)

/-- The vector `returns.mean()` of column means. -/
def colMeans (R : ReturnSeries) : List ℚ :=
  (List.range R.ncols).map (fun j => colMean R j)

/-- Elementwise product followed by sum: `np.sum(a * b)` / `np.dot(a, b)`. -/
def dotList (a b : List ℚ) : ℚ :=
  (List.zipWith (fun x y => x * y) a b).sum

/-- The covariance matrix `returns.cov()` as a list of rows. -/
def covMatrix (R : ReturnSeries) : List (List ℚ) :=
  (List.range R.ncols).map (fun i =>
    (List.range R.ncols).map (fun j => sampleCov R i j))

/-- The matrix `returns.cov() * 252` (elementwise scaling). -/
def scaledCov (R : ReturnSeries) : List (List ℚ) :=
  (covMatrix R).map (fun row => row.map (fun c => c * 252))

/-- Matrix-vector product `np.dot(M, v)`. -/
def matVec (M : List (List ℚ)) (v : List ℚ) : List ℚ :=
  M.map (fun row => dotList row v)

/-- `annual_return = np.sum(returns.mean() * weights) * 252`
(src/portfolio.py line 24). -/
def annual_return (w : List ℚ) (R : ReturnSeries) : ℚ :=
  dotList (colMeans R) w * 252

/-- The quantity under the square root on lines 25-27:
`np.dot(weights.T, np.dot(returns.cov() * 252, weights))`. -/
def annualVariance (w : List ℚ) (R : ReturnSeries) : ℚ :=
  dotList w (matVec (scaledCov R) w)

/-- `annual_volatility = np.sqrt(...)` (src/portfolio.py lines 25-27). -/
noncomputable def annual_volatility (w : List ℚ) (R : ReturnSeries) : ℝ :=
  Real.sqrt ((annualVariance w R : ℚ) : ℝ)

/-- `sharpe_ratio = annual_return / annual_volatility`
(src/portfolio.py line 28), with IEEE semantics for a zero denominator. -/
noncomputable def sharpeRat (w : List ℚ) (R : ReturnSeries) : EVal ℝ :=
  evalDivR ((annual_return w R : ℚ) : ℝ) (annual_volatility w R)

/-- `portfolio_performance(weights, returns)` (src/portfolio.py lines 20-29):
returns the triple (annual return, annual volatility, Sharpe ratio). -/
noncomputable def portfolio_performance (w : List ℚ) (R : ReturnSeries) :
    ℚ × ℝ × EVal ℝ :=
  (annual_return w R, annual_volatility w R, sharpeRat w R)

/-- The normalisation `weights / np.sum(weights)` (src/portfolio.py line 43)
with exact rational division (faithful whenever the sum is nonzero). -/
def normalizeQ (u : List ℚ) : List ℚ :=
  u.map (fun x => x / u.sum)

/-- The normalisation `weights / np.sum(weights)` with IEEE division:
this is the faithful model also when the sum is zero (`0 / 0 = NaN`). -/
def normalizeDraw (u : List ℚ) : List (EVal ℚ) :=
  u.map (fun x => evalDivQ x u.sum)

/-- `simulate_portfolios(returns, num_simulations)` (src/portfolio.py
lines 32-51).  The unseeded `np.random.random(num_assets)` draws are
modelled by an explicit stream `draws : ℕ → List ℚ` giving the vector
drawn at each iteration.  Returns the results (one performance triple per
iteration) and the weights record. -/
noncomputable def simulate_portfolios (R : ReturnSeries) (draws : ℕ → List ℚ)
    (num_simulations : ℕ) : List (ℚ × ℝ × EVal ℝ) × List (List ℚ) :=
  (((List.range num_simulations).map
      (fun i => portfolio_performance (normalizeQ (draws i)) R)),
   ((List.range num_simulations).map (fun i => normalizeQ (draws i))))

/-- The inner objective `negative_sharpe(weights)` of `get_optimal_portfolio`
(src/portfolio.py lines 60-62): call `portfolio_performance`, keep the
Sharpe ratio, negate it. -/
noncomputable def negative_sharpe (R : ReturnSeries) (w : List ℚ) : EVal ℝ :=
  evalNeg (portfolio_performance w R).2.2

/-- Description of the single `scipy.optimize.minimize` call made by
`get_optimal_portfolio`: objective, initial point, bounds, the equality
constraint function, and the method string. -/
structure MinimizeProblem where
  objective : List ℚ → EVal ℝ
  x0 : List ℚ
  bounds : List (ℚ × ℚ)
  eqConstraint : List ℚ → ℚ
  method : String

/-- The fields of the scipy result record that the code can observe:
the solution point `x` and the convergence flag `success`. -/
structure OptimizeResult where
  x : List ℚ
  success : Bool

/-- The minimisation problem built by `get_optimal_portfolio`
(src/portfolio.py lines 64-71): objective `negative_sharpe`, initial
guess `num_assets * [1 / num_assets]`, bounds `(0, 1)` per asset, equality
constraint `np.sum(x) - 1`, method SLSQP. -/
noncomputable def minimizeProblemFor (R : ReturnSeries) : MinimizeProblem :=
  { objective := fun w => negative_sharpe R w
    x0 := List.replicate R.ncols (1 / (R.ncols : ℚ))
    bounds := List.replicate R.ncols (0, 1)
    eqConstraint := fun x => x.sum - 1
    method := "SLSQP" }

/-- `get_optimal_portfolio(returns)` (src/portfolio.py lines 54-73): one
solver call, and `return result.x` — only the point is returned. -/
noncomputable def get_optimal_portfolio
    (solver : MinimizeProblem → OptimizeResult) (R : ReturnSeries) :
    List ℚ :=
  (solver (minimizeProblemFor R)).x

/-! ### Spec-side definitions (transcribed from spec.md §4.1, for the
refinement claim C1) -/

/-- Spec formula: `annualReturn = 252 * sum_i(weights[i] * mean(returns[:,i]))`. -/
def spec_annualReturn (w : List ℚ) (R : ReturnSeries) : ℚ :=
  252 * ∑ i in Finset.range R.ncols, w.getD i 0 * colMean R i

/-- Spec formula: the quadratic form `weights^T · (252 * covarianceMatrix) · weights`. -/
def spec_annualVariance (w : List ℚ) (R : ReturnSeries) : ℚ :=
  ∑ i in Finset.range R.ncols, ∑ j in Finset.range R.ncols,
    w.getD i 0 * (252 * sampleCov R i j) * w.getD j 0

/-- Spec formula: `annualVolatility = sqrt(weights^T · (252 * covarianceMatrix) · weights)`. -/
noncomputable def spec_annualVolatility (w : List ℚ) (R : ReturnSeries) : ℝ :=
  Real.sqrt ((spec_annualVariance w R : ℚ) : ℝ)

/-- Spec formula: `sharpeRatio = annualReturn / annualVolatility`, no
risk-free-rate subtraction. -/
noncomputable def spec_sharpeRatio (w : List ℚ) (R : ReturnSeries) : EVal ℝ :=
  evalDivR ((spec_annualReturn w R : ℚ) : ℝ) (spec_annualVolatility w R)

/-! ### Claim-side predicates and concrete data used in witnesses and
counterexamples -/

/-- Boolean test used to state claim C3: the component is a finite
non-negative value. -/
def isFinNonneg : EVal ℚ → Bool
  | EVal.fin q => decide (0 ≤ q)
  | _ => false

/-- Finite part of an extended value (0 for non-finite values); used only
to phrase the sum in claim C3. -/
def evalToQ : EVal ℚ → ℚ
  | EVal.fin q => q
  | _ => 0

/-- The property claimed in C3 of a normalised weight vector: every
component is finite and non-negative, and the components sum to 1 within
the spec's floating-point tolerance `1e-9`. -/
def claimedNormalized (l : List (EVal ℚ)) : Prop :=
  (∀ e ∈ l, isFinNonneg e = true)
    ∧ |(l.map evalToQ).sum - 1| ≤ 1 / 1000000000

/-- Concrete two-asset return series used in witnesses. -/
def R2 : ReturnSeries := ⟨2, [[1/100, 2/100], [3/100, 1/100]]⟩

/-- Concrete one-asset return series with two identical rows: zero sample
variance, positive mean return. -/
def Rzero : ReturnSeries := ⟨1, [[1/100], [1/100]]⟩

/-- A solver stub that returns the initial point and reports convergence. -/
def solverOkFlag : MinimizeProblem → OptimizeResult :=
  fun p => ⟨p.x0, true⟩

/-- A solver stub that returns the initial point and reports
non-convergence. -/
def solverBadFlag : MinimizeProblem → OptimizeResult :=
  fun p => ⟨p.x0, false⟩

/-! ### Helper lemmas -/

lemma dotList_nil_left (b : List ℚ) : dotList [] b = 0 := rfl

lemma dotList_eq_sum (a b : List ℚ) (h : a.length = b.length) :
    dotList a b = ∑ i in Finset.range a.length, a.getD i 0 * b.getD i 0 := by
  induction a generalizing b with
  | nil => simp [dotList]
  | cons x xs ih =>
    cases b with
    | nil => simp at h
    | cons y ys =>
      simp only [List.length_cons, Nat.succ.injEq] at h
      simp only [dotList, List.zipWith_cons_cons, List.sum_cons,
        List.length_cons]
      rw [Finset.sum_range_succ']
      simp only [List.getD_cons_succ, List.getD_cons_zero]
      rw [← dotList, ih ys h]
      ring

lemma getD_map_range {α : Type} (f : ℕ → α) (d : α) {n i : ℕ} (h : i < n) :
    ((List.range n).map f).getD i d = f i := by
  rw [List.getD_eq_getElem _ _ (by simpa using h)]
  simp


lemma colMeans_length (R : ReturnSeries) : (colMeans R).length = R.ncols := by
  simp [colMeans]

lemma scaledCov_eq (R : ReturnSeries) :
    scaledCov R = (List.range R.ncols).map (fun i =>
      (List.range R.ncols).map (fun j => sampleCov R i j * 252)) := by
  simp [scaledCov, covMatrix, List.map_map, Function.comp]

lemma annual_return_eq_spec (w : List ℚ) (R : ReturnSeries)
    (h : w.length = R.ncols) : annual_return w R = spec_annualReturn w R := by
  rw [annual_return, spec_annualReturn,
    dotList_eq_sum _ _ (by rw [colMeans_length, h]), colMeans_length,
    Finset.mul_sum, Finset.sum_mul]
  refine Finset.sum_congr rfl (fun i hi => ?_)
  rw [show (colMeans R).getD i 0 = colMean R i from
    getD_map_range _ _ (Finset.mem_range.mp hi)]
  ring

lemma annualVariance_eq_spec (w : List ℚ) (R : ReturnSeries)
    (h : w.length = R.ncols) :
    annualVariance w R = spec_annualVariance w R := by
  have hm : matVec (scaledCov R) w = (List.range R.ncols).map (fun i =>
      dotList ((List.range R.ncols).map (fun j => sampleCov R i j * 252)) w) := by
    rw [scaledCov_eq]
    simp [matVec, List.map_map, Function.comp]
  rw [annualVariance, spec_annualVariance, hm,
    dotList_eq_sum _ _ (by simp [h]), h]
  refine Finset.sum_congr rfl (fun i hi => ?_)
  rw [getD_map_range _ _ (Finset.mem_range.mp hi),
    dotList_eq_sum _ _ (by simp [h]), List.length_map, List.length_range,
    Finset.mul_sum]
  refine Finset.sum_congr rfl (fun j hj => ?_)
  rw [getD_map_range _ _ (Finset.mem_range.mp hj)]
  ring

/-- Claim C1: for every weight vector of length N and return series with N
columns, `portfolio_performance` returns exactly the spec triple:
`annualReturn = 252 * sum_i(w[i] * mean of column i)`,
`annualVolatility = sqrt(w^T (252 * sample covariance matrix) w)`, and
`sharpeRatio = annualReturn / annualVolatility` with no risk-free-rate
subtraction. -/
theorem C1_portfolio_performance_matches_spec (w : List ℚ) (R : ReturnSeries)
    (h : w.length = R.ncols) :
    portfolio_performance w R
      = (spec_annualReturn w R, spec_annualVolatility w R,
         spec_sharpeRatio w R) := by
  simp only [portfolio_performance, sharpeRat, annual_volatility,
    spec_annualVolatility, spec_sharpeRatio,
    annual_return_eq_spec w R h, annualVariance_eq_spec w R h]

theorem C1_portfolio_performance_matches_spec_witness :
    portfolio_performance [(1:ℚ)/2, 1/2] R2
      = (spec_annualReturn [(1:ℚ)/2, 1/2] R2,
         spec_annualVolatility [(1:ℚ)/2, 1/2] R2,
         spec_sharpeRatio [(1:ℚ)/2, 1/2] R2) :=
  C1_portfolio_performance_matches_spec [(1:ℚ)/2, 1/2] R2 rfl

lemma dotList_cons (x y : ℚ) (xs ys : List ℚ) :
    dotList (x :: xs) (y :: ys) = x * y + dotList xs ys := rfl

lemma dotList_map_right (c : ℚ) (a b : List ℚ) :
    dotList a (b.map (fun x => c * x)) = c * dotList a b := by
  induction a generalizing b with
  | nil => simp [dotList]
  | cons x xs ih =>
    cases b with
    | nil => simp [dotList]
    | cons y ys =>
      rw [List.map_cons, dotList_cons, dotList_cons, ih]
      ring

lemma dotList_map_left (c : ℚ) (a b : List ℚ) :
    dotList (a.map (fun x => c * x)) b = c * dotList a b := by
  induction a generalizing b with
  | nil => simp [dotList]
  | cons x xs ih =>
    cases b with
    | nil => simp [dotList]
    | cons y ys =>
      rw [List.map_cons, dotList_cons, dotList_cons, ih]
      ring

lemma matVec_map (M : List (List ℚ)) (c : ℚ) (v : List ℚ) :
    matVec M (v.map (fun x => c * x)) = (matVec M v).map (fun x => c * x) := by
  simp [matVec, List.map_map, Function.comp, dotList_map_right]

lemma sum_map_div (u : List ℚ) (c : ℚ) :
    (u.map (fun x => x / c)).sum = u.sum / c := by
  induction u with
  | nil => simp
  | cons x xs ih => simp [ih, add_div]

lemma normalizeQ_sum (u : List ℚ) (h : u.sum ≠ 0) :
    (normalizeQ u).sum = 1 := by
  rw [normalizeQ, sum_map_div, div_self h]

lemma normalizeDraw_eq_fin (u : List ℚ) (h : u.sum ≠ 0) :
    normalizeDraw u = (normalizeQ u).map EVal.fin := by
  simp [normalizeDraw, normalizeQ, evalDivQ, h, List.map_map, Function.comp]

lemma replicate_inv_sum (n : ℕ) (h : 0 < n) :
    (List.replicate n (1 / (n : ℚ))).sum = 1 := by
  rw [List.sum_replicate, nsmul_eq_mul]
  field_simp

/-- Claim C2: for every return series with N columns (N positive),
`get_optimal_portfolio` performs exactly one constrained minimisation of
the negated Sharpe ratio starting from the uniform initial guess `1/N`
per component (which sums to 1), with equality constraint `sum(w) - 1 = 0`,
bound constraints `(0, 1)` for every component, method SLSQP, and returns
the solver's resulting point. -/
theorem C2_solver_call_configuration
    (solver : MinimizeProblem → OptimizeResult) (R : ReturnSeries)
    (h : 0 < R.ncols) :
    get_optimal_portfolio solver R = (solver (minimizeProblemFor R)).x
    ∧ (minimizeProblemFor R).x0 = List.replicate R.ncols (1 / (R.ncols : ℚ))
    ∧ (minimizeProblemFor R).x0.sum = 1
    ∧ (minimizeProblemFor R).bounds = List.replicate R.ncols (0, 1)
    ∧ (∀ x, (minimizeProblemFor R).eqConstraint x = x.sum - 1)
    ∧ (∀ x, (minimizeProblemFor R).objective x = negative_sharpe R x)
    ∧ (minimizeProblemFor R).method = "SLSQP" :=
  ⟨rfl, rfl, replicate_inv_sum R.ncols h, rfl, fun _ => rfl, fun _ => rfl, rfl⟩

theorem C2_solver_call_configuration_witness :
    get_optimal_portfolio solverOkFlag R2 = (solverOkFlag (minimizeProblemFor R2)).x
    ∧ (minimizeProblemFor R2).x0 = List.replicate R2.ncols (1 / (R2.ncols : ℚ))
    ∧ (minimizeProblemFor R2).x0.sum = 1
    ∧ (minimizeProblemFor R2).bounds = List.replicate R2.ncols (0, 1)
    ∧ (∀ x, (minimizeProblemFor R2).eqConstraint x = x.sum - 1)
    ∧ (∀ x, (minimizeProblemFor R2).objective x = negative_sharpe R2 x)
    ∧ (minimizeProblemFor R2).method = "SLSQP" :=
  C2_solver_call_configuration solverOkFlag R2 (by decide)

/-- Claim C7 counterexample: the convergence flag is NOT surfaced to the
caller.  Two solvers that return the same point but opposite `success`
flags are indistinguishable through `get_optimal_portfolio`, which
returns only `result.x` (src/portfolio.py line 73). -/
theorem C7_counterexample_flag_discarded :
    get_optimal_portfolio solverOkFlag R2 = get_optimal_portfolio solverBadFlag R2
    ∧ (solverOkFlag (minimizeProblemFor R2)).success
        ≠ (solverBadFlag (minimizeProblemFor R2)).success :=
  ⟨rfl, by decide⟩

/-- Claim C7 (amended): `get_optimal_portfolio` returns exactly the
solver's point `result.x` — it never raises for a non-converged result,
but it discards the rest of the raw result: its output depends on the
solver's result only through the field `x`, so the convergence flag is
masked, not surfaced. -/
theorem C7_returns_point_never_raises
    (solver₁ solver₂ : MinimizeProblem → OptimizeResult) (R : ReturnSeries)
    (hx : (solver₁ (minimizeProblemFor R)).x
        = (solver₂ (minimizeProblemFor R)).x) :
    get_optimal_portfolio solver₁ R = (solver₁ (minimizeProblemFor R)).x
    ∧ get_optimal_portfolio solver₁ R = get_optimal_portfolio solver₂ R :=
  ⟨rfl, hx⟩

theorem C7_returns_point_never_raises_witness :
    get_optimal_portfolio solverOkFlag Rzero
      = (solverOkFlag (minimizeProblemFor Rzero)).x
    ∧ get_optimal_portfolio solverOkFlag Rzero
      = get_optimal_portfolio solverBadFlag Rzero :=
  C7_returns_point_never_raises solverOkFlag solverBadFlag Rzero rfl

/-- Claim C8: the solver's objective `negative_sharpe(w)` is exactly the
negation of the Sharpe ratio recomputed by `portfolio_performance` on the
same weights and returns (same function, same inputs); negating the
objective back recovers the recomputed Sharpe ratio exactly. -/
theorem C8_objective_is_negated_sharpe (w : List ℚ) (R : ReturnSeries) :
    negative_sharpe R w = evalNeg (portfolio_performance w R).2.2
    ∧ evalNeg (negative_sharpe R w) = (portfolio_performance w R).2.2 := by
  refine ⟨rfl, ?_⟩
  show evalNeg (evalNeg (portfolio_performance w R).2.2)
      = (portfolio_performance w R).2.2
  cases (portfolio_performance w R).2.2 <;> simp [evalNeg]

/-- Claim C9: `portfolio_performance` is deterministic: two calls with
identical weights and identical return series produce identical triples.
(The embedding is a pure function of its arguments: the Python body reads
no global state and mutates nothing.) -/
theorem C9_portfolio_performance_deterministic (w₁ w₂ : List ℚ)
    (R₁ R₂ : ReturnSeries) (hw : w₁ = w₂) (hR : R₁ = R₂) :
    portfolio_performance w₁ R₁ = portfolio_performance w₂ R₂ := by
  rw [hw, hR]

theorem C9_portfolio_performance_deterministic_witness :
    portfolio_performance [(1:ℚ)/2, 1/2] R2
      = portfolio_performance [(1:ℚ)/2, 1/2] R2 :=
  C9_portfolio_performance_deterministic _ _ _ _ rfl rfl

/-- Claim C3 counterexample: the claim fails as stated on the draw that is
possible under `np.random.random` (values in `[0,1)`) in which every drawn
value is exactly 0.  The normalisation divides by the zero sum, producing
NaN components, so the result is neither non-negative-finite nor does it
sum to 1 within the tolerance 1e-9. -/
theorem C3_counterexample_all_zero_draw :
    ¬ claimedNormalized (normalizeDraw [(0:ℚ), 0]) := by
  intro h
  have hmem : EVal.nan ∈ normalizeDraw [(0:ℚ), 0] := by
    have : normalizeDraw [(0:ℚ), 0] = [EVal.nan, EVal.nan] := by
      norm_num [normalizeDraw, evalDivQ]
    rw [this]
    simp
  have := h.1 EVal.nan hmem
  simp [isFinNonneg] at this

/-- Claim C3 (amended): for every draw whose values are non-negative with a
positive sum (every draw with at least one nonzero value), the normalised
weight vector has only finite non-negative components and sums to 1 within
the tolerance 1e-9 (in fact exactly). -/
theorem C3_normalized_weights_sum_to_one (u : List ℚ)
    (h0 : ∀ x ∈ u, 0 ≤ x) (hs : 0 < u.sum) :
    claimedNormalized (normalizeDraw u) := by
  constructor
  · intro e he
    rw [normalizeDraw_eq_fin u hs.ne'] at he
    simp only [normalizeQ, List.map_map, List.mem_map, Function.comp] at he
    obtain ⟨y, hy, rfl⟩ := he
    simp only [isFinNonneg, decide_eq_true_eq]
    exact div_nonneg (h0 y hy) hs.le
  · rw [normalizeDraw_eq_fin u hs.ne', List.map_map]
    have hcomp : (evalToQ ∘ EVal.fin) = fun q : ℚ => q := by
      funext q
      rfl
    rw [hcomp, List.map_id', normalizeQ_sum u hs.ne']
    norm_num

theorem C3_normalized_weights_sum_to_one_witness :
    claimedNormalized (normalizeDraw [(1:ℚ)/2, 1/4]) :=
  C3_normalized_weights_sum_to_one [(1:ℚ)/2, 1/4]
    (by intro x hx; simp at hx; rcases hx with h | h <;> norm_num [h])
    (by norm_num)

/-- Claim C10: the normalisation `weights / np.sum(weights)` is an
unguarded division.  For non-negative draws: if the sum is zero (every
draw exactly 0) every produced component is NaN (0/0) — no error is
raised and the vector does not sum to 1; if the sum is positive the
division is finite and the produced vector sums to exactly 1 with
non-negative components. -/
theorem C10_normalization_unguarded_division (u : List ℚ)
    (h0 : ∀ x ∈ u, 0 ≤ x) :
    (u.sum = 0 → ∀ e ∈ normalizeDraw u, e = EVal.nan)
    ∧ (0 < u.sum →
        normalizeDraw u = (normalizeQ u).map EVal.fin
        ∧ (normalizeQ u).sum = 1
        ∧ ∀ x ∈ normalizeQ u, 0 ≤ x) := by
  constructor
  · intro hs e he
    simp only [normalizeDraw, List.mem_map] at he
    obtain ⟨x, hx, rfl⟩ := he
    have hx0 : x = 0 := by
      have hle : x ≤ u.sum := List.single_le_sum h0 x hx
      have := h0 x hx
      rw [hs] at hle
      linarith
    rw [hx0, hs, evalDivQ]
    simp
  · intro hs
    refine ⟨normalizeDraw_eq_fin u hs.ne', normalizeQ_sum u hs.ne', ?_⟩
    intro x hx
    simp only [normalizeQ, List.mem_map] at hx
    obtain ⟨y, hy, rfl⟩ := hx
    exact div_nonneg (h0 y hy) hs.le

theorem C10_normalization_unguarded_division_witness :
    (∀ e ∈ normalizeDraw [(0:ℚ), 0], e = EVal.nan)
    ∧ (normalizeQ [(1:ℚ), 3]).sum = 1 :=
  ⟨(C10_normalization_unguarded_division [0, 0]
      (by intro x hx; simp at hx; simp [hx])).1
      (by norm_num),
   ((C10_normalization_unguarded_division [1, 3]
      (by intro x hx; simp at hx; rcases hx with h | h <;> norm_num [h])).2
      (by norm_num)).2.1⟩

/-- Claim C4: when the annual volatility is exactly 0, the division on
line 28 is performed anyway: the Sharpe ratio is `+inf`, `-inf` or `NaN`
according to the sign of the annual return, and is never a finite value —
no default is substituted and no validation error is raised (the function
is total); the caller must guard against this case. -/
theorem C4_zero_volatility_division (w : List ℚ) (R : ReturnSeries)
    (h : annual_volatility w R = 0) :
    (0 < annual_return w R → sharpeRat w R = EVal.posInf)
    ∧ (annual_return w R < 0 → sharpeRat w R = EVal.negInf)
    ∧ (annual_return w R = 0 → sharpeRat w R = EVal.nan)
    ∧ ∀ x : ℝ, sharpeRat w R ≠ EVal.fin x := by
  have hd : sharpeRat w R
      = if 0 < ((annual_return w R : ℚ) : ℝ) then EVal.posInf
        else if ((annual_return w R : ℚ) : ℝ) < 0 then EVal.negInf
        else EVal.nan := by
    rw [sharpeRat, h, evalDivR, if_pos rfl]
  refine ⟨fun har => ?_, fun har => ?_, fun har => ?_, fun x => ?_⟩
  · rw [hd, if_pos (by exact_mod_cast har)]
  · have har' : ((annual_return w R : ℚ) : ℝ) < 0 := by exact_mod_cast har
    rw [hd, if_neg (by linarith), if_pos har']
  · rw [hd]
    simp [har]
  · rw [hd]
    split_ifs <;> simp

theorem C4_zero_volatility_division_witness :
    sharpeRat [(1:ℚ)] Rzero = EVal.posInf := by
  have hv : annualVariance [(1:ℚ)] Rzero = 0 := by
    norm_num [annualVariance, matVec, scaledCov, covMatrix, sampleCov,
      colMean, Rzero, dotList, List.range_succ]
  have h : annual_volatility [(1:ℚ)] Rzero = 0 := by
    rw [annual_volatility, hv]
    simp
  have har : 0 < annual_return [(1:ℚ)] Rzero := by
    norm_num [annual_return, colMeans, colMean, Rzero, dotList,
      List.range_succ]
  exact (C4_zero_volatility_division [1] Rzero h).1 har

/-- Claim C5 counterexample: `portfolio_performance` does NOT fail fast on
an invalid weight vector.  For the weights `[3/4, 3/4]` — whose sum `3/2`
is far from 1 — it silently computes and returns the metrics (here the
annual return `1323/200`), with no validation error. -/
theorem C5_counterexample_no_validation :
    List.sum [(3:ℚ)/4, 3/4] ≠ 1
    ∧ (portfolio_performance [(3:ℚ)/4, 3/4] R2).1 = 1323/200 := by
  constructor
  · norm_num
  · show annual_return [(3:ℚ)/4, 3/4] R2 = 1323/200
    norm_num [annual_return, colMeans, colMean, R2, dotList, List.range_succ]

/-- Claim C5 (amended): `portfolio_performance` performs no validation of
the weight vector: any vector — components outside `[0,1]`, sum far
from 1 — is accepted and the formulas are applied to it, so the metrics
scale with the invalid input (annual return linearly, the quantity under
the volatility square root quadratically) instead of an error being
raised before computation. -/
theorem C5_metrics_scale_with_invalid_weights (c : ℚ) (w : List ℚ)
    (R : ReturnSeries) :
    annual_return (w.map (fun x => c * x)) R = c * annual_return w R
    ∧ annualVariance (w.map (fun x => c * x)) R
        = c ^ 2 * annualVariance w R := by
  constructor
  · rw [annual_return, annual_return, dotList_map_right]
    ring
  · rw [annualVariance, annualVariance, matVec_map, dotList_map_right,
      dotList_map_left]
    ring

/-- Claim C6 counterexample: `simulate_portfolios` with
`num_simulations = 0` returns the empty simulation result silently — there
is no validation error anywhere in the function (it is total). -/
theorem C6_counterexample_zero_simulations :
    simulate_portfolios R2 (fun _ => []) 0 = ([], []) := rfl

/-- Claim C6 (amended): for every return series and every draw stream,
calling the Frontier Sampler with `numSimulations = 0` silently returns
the empty `SimulationResult` (no performance triples, no recorded
weights); no validation error is raised. -/
theorem C6_zero_simulations_returns_empty (R : ReturnSeries)
    (draws : ℕ → List ℚ) :
    simulate_portfolios R draws 0 = ([], []) := rfl
